import Mathlib

/-!
Verification of the zpoline-rs syscall-interception core against its
specification.  The Rust sources are shallowly embedded: byte buffers become
lists of naturals (each < 256 where it matters), the process-global and
thread-local state is threaded explicitly, and the two external effects the
rewriter performs (the instruction decoder of the iced_x86 crate and the
mprotect system call) are modelled, the former from the specification's
scanner contract and the latter as an explicit success/failure input.
-/

namespace Zpoline

/-! ## Memory regions (src/zpoline_rewriter/src/maps.rs) -/

/-- Embedding of struct MemoryRegion.  The `end` field is called `end_`
because `end` is a Lean keyword; `private` likewise becomes `private_`.
Addresses are usize values, embedded as Nat (the parser enforces < 2^64). -/
structure MemoryRegion where
  start : Nat
  end_ : Nat
  readable : Bool
  writable : Bool
  executable : Bool
  private_ : Bool
  offset : Nat
  device : String
  inode : Nat
  pathname : Option String
deriving Repr, DecidableEq

/-- MemoryRegion::is_executable. -/
def MemoryRegion.is_executable (r : MemoryRegion) : Bool := r.executable

/-- MemoryRegion::is_writable. -/
def MemoryRegion.is_writable (r : MemoryRegion) : Bool := r.writable

/-- MemoryRegion::size (usize subtraction; Nat subtraction truncates at 0
exactly where the Rust debug build would panic on underflow). -/
def MemoryRegion.size (r : MemoryRegion) : Nat := r.end_ - r.start

/-- Split a character list at every separator character (Rust
str::split: adjacent or edge separators yield empty pieces). -/
def splitChars (p : Char → Bool) : List Char → List Char → List (List Char)
  | [], acc => [acc.reverse]
  | c :: cs, acc =>
    if p c then acc.reverse :: splitChars p cs []
    else splitChars p cs (c :: acc)

/-- Rust str::split_whitespace: the non-empty maximal runs of
non-whitespace characters of the line. -/
def splitWs (line : String) : List (List Char) :=
  (splitChars Char.isWhitespace line.data []).filter (fun piece => !piece.isEmpty)

/-- Rust [T]::join for string pieces: interleave the separator. -/
def joinWith (sep : List Char) : List (List Char) → List Char
  | [] => []
  | [piece] => piece
  | piece :: pieces => piece ++ sep ++ joinWith sep pieces

/-- Rust str::len: the UTF-8 byte length. -/
def utf8Len (cs : List Char) : Nat := (cs.map Char.utf8Size).sum

/-- Value of one digit character, as accepted by Rust's from_str_radix for
radixes up to 16 (the caller checks the digit is below the radix). -/
def digitVal? (c : Char) : Option Nat :=
  if '0' ≤ c ∧ c ≤ '9' then some (c.toNat - '0'.toNat)
  else if 'a' ≤ c ∧ c ≤ 'f' then some (c.toNat - 'a'.toNat + 10)
  else if 'A' ≤ c ∧ c ≤ 'F' then some (c.toNat - 'A'.toNat + 10)
  else none

/-- Embedding of u64/usize from_str_radix (and u64 FromStr for radix 10):
an optional leading plus sign, then at least one digit below the radix;
values of 2^64 or more overflow and are rejected. -/
def parseNatRadix (radix : Nat) (s : List Char) : Option Nat :=
  let cs := match s with
    | '+' :: rest => rest
    | cs => cs
  if cs.isEmpty then none
  else
    (cs.foldl (fun acc? c =>
        acc?.bind fun acc =>
          (digitVal? c).bind fun d =>
            if d < radix then some (acc * radix + d) else none)
      (some 0)).bind fun v =>
      if v < 2 ^ 64 then some v else none

/-- Embedding of parse_maps_line (maps.rs).  The shape of the checks and
their order follow the Rust function; field accesses parts[i] that the
length checks have made safe are rendered with getD, and strings are
processed through their character lists. -/
def parse_maps_line (line : String) : Option MemoryRegion :=
  let parts := splitWs line
  if parts.isEmpty then none
  else
    let addr_parts := splitChars (fun c => c == '-') (parts.getD 0 []) []
    if addr_parts.length ≠ 2 then none
    else
      match parseNatRadix 16 (addr_parts.getD 0 []),
            parseNatRadix 16 (addr_parts.getD 1 []) with
      | some s, some e =>
        if parts.length < 5 then none
        else
          let perms := parts.getD 1 []
          if utf8Len perms ≠ 4 then none
          else
            match perms.get? 0, perms.get? 1, perms.get? 2, perms.get? 3 with
            | some c0, some c1, some c2, some c3 =>
              match parseNatRadix 16 (parts.getD 2 []),
                    parseNatRadix 10 (parts.getD 4 []) with
              | some off, some ino =>
                some { start := s
                       end_ := e
                       readable := c0 = 'r'
                       writable := c1 = 'w'
                       executable := c2 = 'x'
                       private_ := c3 = 'p'
                       offset := off
                       device := String.mk (parts.getD 3 [])
                       inode := ino
                       pathname :=
                         if parts.length > 5 then
                           some (String.mk (joinWith [' '] (parts.drop 5)))
                         else none }
              | _, _ => none
            | _, _, _, _ => none
      | _, _ => none

/-! ## Rewriter configuration (src/zpoline_rewriter/src/rewriter.rs) -/

/-- Embedding of enum RewriteError.  The nix error payload of ProtectError
carries no information the claims use and is dropped. -/
inductive RewriteError where
  | ProtectError : RewriteError
  | DecodeError : String → RewriteError
  | Other : String → RewriteError
deriving Repr, DecidableEq

/-- Embedding of struct RewriteConfig.  The HashSet of exclude paths is
embedded as a list (only membership is ever used). -/
structure RewriteConfig where
  exclude_paths : List String
  exclude_ranges : List (Nat × Nat)
  dry_run : Bool
deriving Repr, DecidableEq

/-- Embedding of struct RewriteStats. -/
structure RewriteStats where
  regions_scanned : Nat
  regions_rewritten : Nat
  syscalls_replaced : Nat
  sysenters_replaced : Nat
  regions_skipped : Nat
deriving Repr, DecidableEq

/-- RewriteStats::default. -/
def RewriteStats.default : RewriteStats := ⟨0, 0, 0, 0, 0⟩

/-- Components of a Rust Path, as compared by Path::starts_with and
PathBuf equality: a root marker for absolute paths, a current-directory
marker when the path begins with one, then the normal components with
empty and dot components normalized away. -/
def pathComponents (s : String) : List (List Char) :=
  (match s.data with
   | '/' :: _ => [['/']]
   | '.' :: '/' :: _ => [['.']]
   | ['.'] => [['.']]
   | _ => []) ++
  ((splitChars (fun c => c == '/') s.data []).filter
    (fun c => !c.isEmpty && !(c == ['.'])))

/-- Embedding of RewriteConfig::is_excluded: a path match (Path
starts_with, or PathBuf equality) against any exclude path, or an overlap
with any excluded half-open range. -/
def RewriteConfig.is_excluded (config : RewriteConfig) (region : MemoryRegion) : Bool :=
  (match region.pathname with
   | some path =>
     config.exclude_paths.any (fun ep =>
       (pathComponents ep).isPrefixOf (pathComponents path)
       || pathComponents path == pathComponents ep)
   | none => false)
  ||
  config.exclude_ranges.any (fun er =>
    decide (region.start < er.2) && decide (region.end_ > er.1))

/-! ## The instruction scanner (Rewriter::find_syscalls) -/

/-- Embedding of the private enum SyscallType. -/
inductive SyscallType where
  | Syscall : SyscallType
  | Sysenter : SyscallType
deriving Repr, DecidableEq

/-- Modelled from the spec: the x86-64 instruction decoder of the external
iced_x86 crate, specialised to the decode loop of Rewriter::find_syscalls.
Per the scanner contract the decoder runs in 64-bit mode, reports the
offset of the first byte of every syscall (0F 05) and sysenter (0F 34)
instruction, and advances past each decoded instruction; instructions
other than the two 2-byte patterns are modelled as consuming one byte,
and a trailing partial instruction stops the scan cleanly. -/
def scanFrom : List Nat → Nat → List (Nat × SyscallType)
  | [], _ => []
  | [_], _ => []
  | a :: b :: rest, off =>
    if a = 0x0f ∧ b = 0x05 then (off, SyscallType.Syscall) :: scanFrom rest (off + 2)
    else if a = 0x0f ∧ b = 0x34 then (off, SyscallType.Sysenter) :: scanFrom rest (off + 2)
    else scanFrom (b :: rest) (off + 1)

/-- The second byte of the two-byte instruction a reported site of the
given kind starts with (0F 05 for syscall, 0F 34 for sysenter). -/
def sitePat : SyscallType → Nat
  | SyscallType.Syscall => 0x05
  | SyscallType.Sysenter => 0x34

/-- Embedding of Rewriter::find_syscalls: the decoder starts with
ip = base_addr and each reported offset is ip - base_addr.  The Rust
function wraps the result in Ok but can never fail. -/
def find_syscalls (base_addr : Nat) (code : List Nat) : List (Nat × SyscallType) :=
  (scanFrom code base_addr).map (fun s => (s.1 - base_addr, s.2))

/-! ## The rewrite loop (Rewriter::rewrite_region) -/

/-- Accumulator of the patch loop of rewrite_region: the region bytes, the
local replaced_count, and the increments to the two per-instruction
statistics counters. -/
structure PatchAcc where
  mem : List Nat
  replaced : Nat
  sys : Nat
  sysen : Nat
deriving Repr, DecidableEq

/-- One iteration of the patch loop: re-verify that the two bytes at the
reported offset still read 0F 05 or 0F 34, and if so overwrite them with
FF D0 and count the replacement under its kind. -/
def patchStep (acc : PatchAcc) (r : Nat × SyscallType) : PatchAcc :=
  if acc.mem.getD r.1 0 = 0x0f
      ∧ (acc.mem.getD (r.1 + 1) 0 = 0x05 ∨ acc.mem.getD (r.1 + 1) 0 = 0x34) then
    { mem := (acc.mem.set r.1 0xff).set (r.1 + 1) 0xd0
      replaced := acc.replaced + 1
      sys := if r.2 = SyscallType.Syscall then acc.sys + 1 else acc.sys
      sysen := if r.2 = SyscallType.Sysenter then acc.sysen + 1 else acc.sysen }
  else acc

/-- Result of one rewrite_region call: the returned value, the rewriter's
statistics afterwards, and the bytes of the region afterwards. -/
structure RegionResult where
  result : Except RewriteError Nat
  stats : RewriteStats
  mem : List Nat
deriving Repr

/-- Embedding of Rewriter::rewrite_region.  `mem` is the byte slice of the
region; `page_size` stands for page_size::get(); `protOk1` and `protOk2`
are the outcomes of the two mprotect calls (external effects).  The
NonNull::new check fails exactly when the page-aligned start is null; the
second NonNull check of the source always passes once the first did (the
address is unchanged) and is therefore not repeated. -/
def rewrite_region (page_size : Nat) (protOk1 protOk2 : Bool)
    (config : RewriteConfig) (stats : RewriteStats)
    (region : MemoryRegion) (mem : List Nat) : RegionResult :=
  let stats := { stats with regions_scanned := stats.regions_scanned + 1 }
  if !region.is_executable then ⟨.ok 0, stats, mem⟩
  else if config.is_excluded region then
    ⟨.ok 0, { stats with regions_skipped := stats.regions_skipped + 1 }, mem⟩
  else
    let replacements := find_syscalls region.start mem
    if replacements.isEmpty then ⟨.ok 0, stats, mem⟩
    else if config.dry_run then
      ⟨.ok replacements.length,
       { stats with syscalls_replaced := stats.syscalls_replaced + replacements.length },
       mem⟩
    else
      let aligned_start := region.start / page_size * page_size
      if aligned_start = 0 then ⟨.error (.Other "Invalid pointer"), stats, mem⟩
      else if !protOk1 then ⟨.error .ProtectError, stats, mem⟩
      else
        let acc := replacements.foldl patchStep ⟨mem, 0, 0, 0⟩
        let stats := { stats with
          syscalls_replaced := stats.syscalls_replaced + acc.sys
          sysenters_replaced := stats.sysenters_replaced + acc.sysen }
        if !protOk2 then ⟨.error .ProtectError, stats, acc.mem⟩
        else
          let stats :=
            if acc.replaced > 0 then
              { stats with regions_rewritten := stats.regions_rewritten + 1 }
            else stats
          ⟨.ok acc.replaced, stats, acc.mem⟩

/-! ## Hook runtime (src/zpoline_hook_api/src/lib.rs) -/

/-- Embedding of struct SyscallRegs (#[repr(C)], seven u64 fields in
declaration order rax, rdi, rsi, rdx, r10, r8, r9). -/
structure SyscallRegs where
  rax : Nat
  rdi : Nat
  rsi : Nat
  rdx : Nat
  r10 : Nat
  r8 : Nat
  r9 : Nat
deriving Repr, DecidableEq

/-- SyscallRegs::new. -/
def SyscallRegs.new (rax rdi rsi rdx r10 r8 r9 : Nat) : SyscallRegs :=
  ⟨rax, rdi, rsi, rdx, r10, r8, r9⟩

/-- SyscallRegs::zero. -/
def SyscallRegs.zero : SyscallRegs := ⟨0, 0, 0, 0, 0, 0, 0⟩

/-- Modelled from the spec: the kernel's handling of one syscall
instruction, the external effect performed by the asm block of
raw_syscall_impl.  It receives the syscall number and the six arguments
and produces the i64 return value. -/
def KernelFn : Type := Nat → Nat → Nat → Nat → Nat → Nat → Nat → Int

/-- Embedding of raw_syscall_impl: issue the syscall instruction with the
registers loaded per the kernel ABI.  The asm block is the kernel model
applied to its seven inputs. -/
def raw_syscall_impl (k : KernelFn) (nr arg1 arg2 arg3 arg4 arg5 arg6 : Nat) : Int :=
  k nr arg1 arg2 arg3 arg4 arg5 arg6

/-- Embedding of raw_syscall: spread the record's fields into
raw_syscall_impl. -/
def raw_syscall (k : KernelFn) (regs : SyscallRegs) : Int :=
  raw_syscall_impl k regs.rax regs.rdi regs.rsi regs.rdx regs.r10 regs.r8 regs.r9

/-- Embedding of raw_syscall_bypass. -/
def raw_syscall_bypass (k : KernelFn) (nr arg1 arg2 arg3 arg4 arg5 arg6 : Nat) : Int :=
  raw_syscall_impl k nr arg1 arg2 arg3 arg4 arg5 arg6

/-- The per-thread state touched by hook_entry: the thread-local IN_HOOK
cell and the (diagnostic) HOOK_ENTRY_CALL_COUNT counter. -/
structure ThreadState where
  in_hook : Bool
  hook_entry_call_count : Nat
deriving Repr, DecidableEq

/-- Embedding of type HookFn = extern fn(&mut SyscallRegs) -> i64.  A hook
may issue syscalls itself and may observe the thread-local state (via
is_in_hook), so it is modelled as a state transformer over the record and
the thread state, parameterised by the kernel model; it returns the i64
result together with the possibly mutated record and state. -/
def HookFn : Type := KernelFn → SyscallRegs → ThreadState → Int × SyscallRegs × ThreadState

/-- Embedding of default_hook: fall through to the raw syscall. -/
def default_hook : HookFn := fun k regs st => (raw_syscall k regs, regs, st)

/-- Initial content of the static HOOK_FUNCTION slot
(AtomicPtr::new(default_hook as *mut ())). -/
def HOOK_FUNCTION_initial : HookFn := default_hook

/-- Embedding of __hook_init: store the given function in the slot. -/
def hook_init (_slot : HookFn) (hook_fn : HookFn) : HookFn := hook_fn

/-- Embedding of get_hook_fn: load the slot (the store/load round trip
through the raw pointer of the AtomicPtr is the identity). -/
def get_hook_fn (slot : HookFn) : HookFn := slot

/-- Embedding of hook_entry.  The slot argument is the current content of
HOOK_FUNCTION; the diagnostic counter increments first, then the
reentrancy check either takes the raw path (leaving the flag as it was)
or runs the user hook between setting and clearing the flag. -/
def hook_entry (k : KernelFn) (slot : HookFn) (regs : SyscallRegs)
    (st : ThreadState) : Int × SyscallRegs × ThreadState :=
  let st := { st with hook_entry_call_count := st.hook_entry_call_count + 1 }
  if st.in_hook then
    (raw_syscall k regs, regs, st)
  else
    let st := { st with in_hook := true }
    let out := get_hook_fn slot k regs st
    (out.1, out.2.1, { out.2.2 with in_hook := false })

/-- Embedding of is_in_hook. -/
def is_in_hook (st : ThreadState) : Bool := st.in_hook

/-! ## Zero-page trampoline (src/zpoline_loader/src/trampoline.rs) -/

/-- const MAX_SYSCALL_NR. -/
def MAX_SYSCALL_NR : Nat := 512

/-- const TRAMPOLINE_SIZE. -/
def TRAMPOLINE_SIZE : Nat := MAX_SYSCALL_NR + 4096

/-- usize::to_le_bytes: the eight little-endian bytes of a 64-bit value. -/
def usizeToLeBytes (a : Nat) : List Nat :=
  [a % 256, a / 256 % 256, a / 256 ^ 2 % 256, a / 256 ^ 3 % 256,
   a / 256 ^ 4 % 256, a / 256 ^ 5 % 256, a / 256 ^ 6 % 256, a / 256 ^ 7 % 256]

/-- Write the given bytes one after another starting at the given offset,
as the sequential mem[offset] = b; offset += 1 writes of the source do
(copy_from_slice over a subrange is the same sequence of writes). -/
def setRange : List Nat → Nat → List Nat → List Nat
  | mem, _, [] => mem
  | mem, off, b :: bs => setRange (mem.set off b) (off + 1) bs

/-- Embedding of generate_hook_stub, writing into the slice it is handed
(mem[stub_offset..] of the trampoline).  Each write group keeps the
source's byte values; the running offset of the source is resolved to the
literal offsets 0, 2, 4, 6, 7, 8, 9, 10, 14, 19, 21, 29, 32, 36, 40, 41,
42, 43, 45, 47, 49. -/
def generate_hook_stub (hook_entry_addr : Nat) (mem : List Nat) : List Nat :=
  let m := setRange mem 0 [0x41, 0x51]
  let m := setRange m 2 [0x41, 0x50]
  let m := setRange m 4 [0x41, 0x52]
  let m := setRange m 6 [0x52]
  let m := setRange m 7 [0x56]
  let m := setRange m 8 [0x57]
  let m := setRange m 9 [0x50]
  let m := setRange m 10 [0x48, 0x83, 0xec, 0x08]
  let m := setRange m 14 [0x48, 0x8d, 0x7c, 0x24, 0x08]
  let m := setRange m 19 [0x49, 0xbb]
  let m := setRange m 21 (usizeToLeBytes hook_entry_addr)
  let m := setRange m 29 [0x41, 0xff, 0xd3]
  let m := setRange m 32 [0x48, 0x83, 0xc4, 0x08]
  let m := setRange m 36 [0x48, 0x83, 0xc4, 0x08]
  let m := setRange m 40 [0x5f]
  let m := setRange m 41 [0x5e]
  let m := setRange m 42 [0x5a]
  let m := setRange m 43 [0x41, 0x5a]
  let m := setRange m 45 [0x41, 0x58]
  let m := setRange m 47 [0x41, 0x59]
  setRange m 49 [0xc3]

/-- Embedding of generate_trampoline_code: fill bytes 0 .. MAX_SYSCALL_NR
with NOP (0x90), then generate the stub into the subslice starting at
stub_offset = MAX_SYSCALL_NR.  hook_entry_addr stands for the runtime
address zpoline_hook_api::hook_entry as usize. -/
def generate_trampoline_code (hook_entry_addr : Nat) (mem : List Nat) : List Nat :=
  let nopped := setRange mem 0 (List.replicate MAX_SYSCALL_NR 0x90)
  nopped.take MAX_SYSCALL_NR
    ++ generate_hook_stub hook_entry_addr (nopped.drop MAX_SYSCALL_NR)

/-! ### Named x86-64 encodings for the stub instructions

Standard x86-64 encodings of the instructions the source's comments name
for each write group: push/pop of r8 to r15 use the REX.B prefix 0x41
before 0x50+r / 0x58+r, push/pop of the legacy registers are single
bytes, and the remaining instructions are the usual opcode + ModRM (+ SIB,
displacement or immediate) forms. -/

def enc_push_r9 : List Nat := [0x41, 0x51]

def enc_push_r8 : List Nat := [0x41, 0x50]

def enc_push_r10 : List Nat := [0x41, 0x52]

def enc_push_rdx : List Nat := [0x52]

def enc_push_rsi : List Nat := [0x56]

def enc_push_rdi : List Nat := [0x57]

def enc_push_rax : List Nat := [0x50]

def enc_sub_rsp_8 : List Nat := [0x48, 0x83, 0xec, 0x08]

def enc_lea_rdi_rsp_plus_8 : List Nat := [0x48, 0x8d, 0x7c, 0x24, 0x08]

def enc_movabs_r11 (addr : Nat) : List Nat := [0x49, 0xbb] ++ usizeToLeBytes addr

def enc_call_r11 : List Nat := [0x41, 0xff, 0xd3]

def enc_add_rsp_8 : List Nat := [0x48, 0x83, 0xc4, 0x08]

def enc_pop_rdi : List Nat := [0x5f]

def enc_pop_rsi : List Nat := [0x5e]

def enc_pop_rdx : List Nat := [0x5a]

def enc_pop_r10 : List Nat := [0x41, 0x5a]

def enc_pop_r8 : List Nat := [0x41, 0x58]

def enc_pop_r9 : List Nat := [0x41, 0x59]

def enc_ret : List Nat := [0xc3]

/-- The byte sequence the specification's stub listing denotes: the
nineteen instructions in their listed order. -/
def stubListing (addr : Nat) : List Nat :=
  enc_push_r9 ++ enc_push_r8 ++ enc_push_r10 ++ enc_push_rdx ++ enc_push_rsi
    ++ enc_push_rdi ++ enc_push_rax
    ++ enc_sub_rsp_8 ++ enc_lea_rdi_rsp_plus_8
    ++ enc_movabs_r11 addr ++ enc_call_r11
    ++ enc_add_rsp_8 ++ enc_add_rsp_8
    ++ enc_pop_rdi ++ enc_pop_rsi ++ enc_pop_rdx ++ enc_pop_r10 ++ enc_pop_r8
    ++ enc_pop_r9 ++ enc_ret

/-- The seven registers the syscall ABI record holds. -/
inductive Reg where
  | rax | rdi | rsi | rdx | r10 | r8 | r9
deriving Repr, DecidableEq

/-- Decode one x86-64 push instruction among those of the record-saving
prologue (standard encodings, see the enc_ definitions). -/
def decodePush : List Nat → Option (Reg × List Nat)
  | 0x41 :: 0x51 :: rest => some (Reg.r9, rest)
  | 0x41 :: 0x50 :: rest => some (Reg.r8, rest)
  | 0x41 :: 0x52 :: rest => some (Reg.r10, rest)
  | 0x52 :: rest => some (Reg.rdx, rest)
  | 0x56 :: rest => some (Reg.rsi, rest)
  | 0x57 :: rest => some (Reg.rdi, rest)
  | 0x50 :: rest => some (Reg.rax, rest)
  | _ => none

/-- Decode up to n consecutive push instructions from the byte stream. -/
def decodePushes : Nat → List Nat → List Reg
  | 0, _ => []
  | n + 1, bs =>
    match decodePush bs with
    | some (r, rest) => r :: decodePushes n rest
    | none => []

/-- Read one register from a record. -/
def readReg (regs : SyscallRegs) : Reg → Nat
  | Reg.rax => regs.rax
  | Reg.rdi => regs.rdi
  | Reg.rsi => regs.rsi
  | Reg.rdx => regs.rdx
  | Reg.r10 => regs.r10
  | Reg.r8 => regs.r8
  | Reg.r9 => regs.r9

/-- The SyscallRegs record viewed as its fields from lowest address
upward: rax, rdi, rsi, rdx, r10, r8, r9 (repr(C) field order). -/
def recordFields (regs : SyscallRegs) : List Nat :=
  [regs.rax, regs.rdi, regs.rsi, regs.rdx, regs.r10, regs.r8, regs.r9]

/-- The values a sequence of push instructions lays down on the stack,
listed from the lowest stack address upward: the stack grows downward, so
this is the reverse of the push order. -/
def stackRecordLowestFirst (pushes : List Reg) (regs : SyscallRegs) : List Nat :=
  (pushes.map (readReg regs)).reverse

/-! ## Concrete demonstration inputs used by witnesses -/

/-- A kernel model returning the syscall number. -/
def kernelDemo : KernelFn := fun nr _ _ _ _ _ _ => Int.ofNat nr

/-- A user hook returning the constant 7. -/
def hookDemo : HookFn := fun _ regs st => (7, regs, st)

/-- An anonymous executable region one page in. -/
def regionDemo : MemoryRegion :=
  ⟨4096, 4099, true, false, true, true, 0, "00:00", 0, none⟩

/-- An executable region backed by a library file. -/
def regionDemoLib : MemoryRegion :=
  ⟨4096, 8192, true, false, true, true, 0, "08:01", 3, some "/lib/libc.so.6"⟩

/-- Three bytes of code: one syscall instruction, then ret. -/
def memDemo : List Nat := [0x0f, 0x05, 0xc3]

/-- An empty configuration. -/
def configDemo : RewriteConfig := ⟨[], [], false⟩

/-- An empty configuration with dry-run enabled. -/
def configDemoDry : RewriteConfig := ⟨[], [], true⟩

/-- A configuration excluding the path prefix /lib. -/
def configDemoExcl : RewriteConfig := ⟨["/lib"], [], false⟩

/-! ## Lemmas about the instruction scanner -/

/-- Shifting the decoder's starting ip shifts every reported ip. -/
theorem scanFrom_shift : ∀ (bytes : List Nat) (off k : Nat),
    scanFrom bytes (off + k) = (scanFrom bytes off).map (fun s => (s.1 + k, s.2))
  | [], _, _ => by simp [scanFrom]
  | [a], _, _ => by simp [scanFrom]
  | a :: b :: rest, off, k => by
    by_cases h1 : a = 0x0f ∧ b = 0x05
    · have hr := scanFrom_shift rest (off + 2) k
      simp only [scanFrom, if_pos h1, List.map_cons]
      rw [show off + 2 + k = off + k + 2 by omega] at hr
      rw [hr]
    · by_cases h2 : a = 0x0f ∧ b = 0x34
      · have hr := scanFrom_shift rest (off + 2) k
        simp only [scanFrom, if_neg h1, if_pos h2, List.map_cons]
        rw [show off + 2 + k = off + k + 2 by omega] at hr
        rw [hr]
      · have hr := scanFrom_shift (b :: rest) (off + 1) k
        simp only [scanFrom, if_neg h1, if_neg h2]
        rw [show off + 1 + k = off + k + 1 by omega] at hr
        rw [hr]

/-- The ip bookkeeping of find_syscalls cancels: the reported offsets are
exactly the scan of the buffer from offset 0. -/
theorem find_syscalls_eq_scanFrom (base : Nat) (code : List Nat) :
    find_syscalls base code = scanFrom code 0 := by
  have h := scanFrom_shift code 0 base
  rw [Nat.zero_add] at h
  rw [find_syscalls, h, List.map_map]
  have hfun : ((fun s : Nat × SyscallType => (s.1 - base, s.2)) ∘
      fun s : Nat × SyscallType => (s.1 + base, s.2)) = id := by
    funext s
    simp
  rw [hfun, List.map_id]

/-- Every reported site lies at or after the scan's starting offset. -/
theorem scanFrom_le : ∀ (bytes : List Nat) (off : Nat),
    ∀ s ∈ scanFrom bytes off, off ≤ s.1
  | [], _ => by simp [scanFrom]
  | [a], _ => by simp [scanFrom]
  | a :: b :: rest, off => by
    intro s hs
    by_cases h1 : a = 0x0f ∧ b = 0x05
    · simp only [scanFrom, if_pos h1, List.mem_cons] at hs
      rcases hs with rfl | hs
      · exact Nat.le_refl _
      · have := scanFrom_le rest (off + 2) s hs; omega
    · by_cases h2 : a = 0x0f ∧ b = 0x34
      · simp only [scanFrom, if_neg h1, if_pos h2, List.mem_cons] at hs
        rcases hs with rfl | hs
        · exact Nat.le_refl _
        · have := scanFrom_le rest (off + 2) s hs; omega
      · simp only [scanFrom, if_neg h1, if_neg h2] at hs
        have := scanFrom_le (b :: rest) (off + 1) s hs; omega

/-- Consecutive reported sites are at least two bytes apart (each site is
a complete two-byte instruction the decoder advances past). -/
theorem scanFrom_chain : ∀ (bytes : List Nat) (off : Nat),
    List.Chain' (fun x y => x.1 + 2 ≤ y.1) (scanFrom bytes off)
  | [], _ => by simp [scanFrom]
  | [a], _ => by simp [scanFrom]
  | a :: b :: rest, off => by
    by_cases h1 : a = 0x0f ∧ b = 0x05
    · simp only [scanFrom, if_pos h1]
      rw [List.chain'_cons']
      refine ⟨?_, scanFrom_chain rest (off + 2)⟩
      intro y hy
      exact scanFrom_le rest (off + 2) y (List.mem_of_mem_head? hy)
    · by_cases h2 : a = 0x0f ∧ b = 0x34
      · simp only [scanFrom, if_neg h1, if_pos h2]
        rw [List.chain'_cons']
        refine ⟨?_, scanFrom_chain rest (off + 2)⟩
        intro y hy
        exact scanFrom_le rest (off + 2) y (List.mem_of_mem_head? hy)
      · simp only [scanFrom, if_neg h1, if_neg h2]
        exact scanFrom_chain (b :: rest) (off + 1)

/-- Soundness of the scanner: every reported site lies fully inside the
buffer and its two bytes read 0F 05 or 0F 34 according to its kind.  The
scan of the suffix after a prefix of matching length is related to the
whole buffer. -/
theorem scanFrom_sound : ∀ (bytes pre : List Nat),
    ∀ s ∈ scanFrom bytes pre.length,
      s.1 + 2 ≤ pre.length + bytes.length ∧
      (pre ++ bytes).getD s.1 0 = 0x0f ∧
      (pre ++ bytes).getD (s.1 + 1) 0 = sitePat s.2
  | [], pre => by simp [scanFrom]
  | [a], pre => by simp [scanFrom]
  | a :: b :: rest, pre => by
    intro s hs
    have hbyte0 : (pre ++ a :: b :: rest).getD pre.length 0 = a := by
      rw [List.getD_append_right _ _ _ _ (Nat.le_refl _), Nat.sub_self]
      rfl
    have hbyte1 : (pre ++ a :: b :: rest).getD (pre.length + 1) 0 = b := by
      rw [List.getD_append_right _ _ _ _ (by omega)]
      have hone : pre.length + 1 - pre.length = 1 := by omega
      rw [hone]
      rfl
    by_cases h1 : a = 0x0f ∧ b = 0x05
    · simp only [scanFrom, if_pos h1, List.mem_cons] at hs
      rcases hs with rfl | hs
      · exact ⟨by simp only [List.length_cons]; omega,
          by rw [hbyte0, h1.1], by rw [hbyte1, h1.2]; rfl⟩
      · have hpre2 : (pre ++ [a, b]).length = pre.length + 2 := by simp
        have hrec := scanFrom_sound rest (pre ++ [a, b]) s (by rw [hpre2]; exact hs)
        rw [hpre2, List.append_assoc] at hrec
        obtain ⟨hb, hx, hy⟩ := hrec
        refine ⟨by simp only [List.length_cons]; omega, ?_, ?_⟩
        · simpa using hx
        · simpa using hy
    · by_cases h2 : a = 0x0f ∧ b = 0x34
      · simp only [scanFrom, if_neg h1, if_pos h2, List.mem_cons] at hs
        rcases hs with rfl | hs
        · exact ⟨by simp only [List.length_cons]; omega,
            by rw [hbyte0, h2.1], by rw [hbyte1, h2.2]; rfl⟩
        · have hpre2 : (pre ++ [a, b]).length = pre.length + 2 := by simp
          have hrec := scanFrom_sound rest (pre ++ [a, b]) s (by rw [hpre2]; exact hs)
          rw [hpre2, List.append_assoc] at hrec
          obtain ⟨hb, hx, hy⟩ := hrec
          refine ⟨by simp only [List.length_cons]; omega, ?_, ?_⟩
          · simpa using hx
          · simpa using hy
      · simp only [scanFrom, if_neg h1, if_neg h2] at hs
        have hpre1 : (pre ++ [a]).length = pre.length + 1 := by simp
        have hrec := scanFrom_sound (b :: rest) (pre ++ [a]) s (by rw [hpre1]; exact hs)
        rw [hpre1, List.append_assoc] at hrec
        obtain ⟨hb, hx, hy⟩ := hrec
        refine ⟨by simp only [List.length_cons] at hb ⊢; omega, ?_, ?_⟩
        · simpa using hx
        · simpa using hy

/-- Soundness at offset 0, stated directly over the buffer. -/
theorem scanFrom_sound_zero (bytes : List Nat) :
    ∀ s ∈ scanFrom bytes 0,
      s.1 + 2 ≤ bytes.length ∧
      bytes.getD s.1 0 = 0x0f ∧ bytes.getD (s.1 + 1) 0 = sitePat s.2 := by
  intro s hs
  have := scanFrom_sound bytes [] s (by simpa using hs)
  simpa using this

/-- Completeness of the scanner: a 0F 05 / 0F 34 byte pair fully inside
the buffer overlaps a reported site (it is reported itself unless the
scan stepped over its first byte as the tail of an earlier site). -/
theorem scanFrom_complete : ∀ (bytes : List Nat) (off i : Nat),
    i + 2 ≤ bytes.length → bytes.getD i 0 = 0x0f →
    (bytes.getD (i + 1) 0 = 0x05 ∨ bytes.getD (i + 1) 0 = 0x34) →
    ∃ s ∈ scanFrom bytes off, s.1 ≤ off + i ∧ off + i ≤ s.1 + 1
  | [], _, i => by
    intro h _ _
    exfalso
    simp only [List.length_nil] at h
    omega
  | [a], _, i => by
    intro h _ _
    exfalso
    simp only [List.length_cons, List.length_nil] at h
    omega
  | a :: b :: rest, off, 0 => by
    intro _ h0 h1
    rw [List.getD_cons_zero] at h0
    rw [List.getD_cons_succ, List.getD_cons_zero] at h1
    rcases h1 with h1 | h1
    · exact ⟨(off, SyscallType.Syscall), by
        simp only [scanFrom, if_pos (And.intro h0 h1)]; exact List.mem_cons_self _ _,
        by omega, by omega⟩
    · have hne : ¬(a = 0x0f ∧ b = 0x05) := by
        intro h; rw [h.2] at h1; exact absurd h1 (by decide)
      exact ⟨(off, SyscallType.Sysenter), by
        simp only [scanFrom, if_neg hne, if_pos (And.intro h0 h1)]
        exact List.mem_cons_self _ _,
        by omega, by omega⟩
  | a :: b :: rest, off, (i + 1) => by
    intro hlen h0 h1
    by_cases hc1 : a = 0x0f ∧ b = 0x05
    · rcases i with _ | m
      · simp only [List.getD_cons_succ, List.getD_cons_zero] at h0
        rw [hc1.2] at h0
        exact absurd h0 (by decide)
      · simp only [List.getD_cons_succ] at h0 h1
        simp only [List.length_cons] at hlen
        have hr := scanFrom_complete rest (off + 2) m (by omega) h0 h1
        rcases hr with ⟨s, hsmem, hle1, hle2⟩
        refine ⟨s, ?_, by omega, by omega⟩
        simp only [scanFrom, if_pos hc1]
        exact List.mem_cons_of_mem _ hsmem
    · by_cases hc2 : a = 0x0f ∧ b = 0x34
      · rcases i with _ | m
        · simp only [List.getD_cons_succ, List.getD_cons_zero] at h0
          rw [hc2.2] at h0
          exact absurd h0 (by decide)
        · simp only [List.getD_cons_succ] at h0 h1
          simp only [List.length_cons] at hlen
          have hr := scanFrom_complete rest (off + 2) m (by omega) h0 h1
          rcases hr with ⟨s, hsmem, hle1, hle2⟩
          refine ⟨s, ?_, by omega, by omega⟩
          simp only [scanFrom, if_neg hc1, if_pos hc2]
          exact List.mem_cons_of_mem _ hsmem
      · simp only [List.getD_cons_succ] at h0
        rw [List.getD_cons_succ] at h1
        simp only [List.length_cons] at hlen
        have hr := scanFrom_complete (b :: rest) (off + 1) i
          (by simp only [List.length_cons]; omega) h0 h1
        rcases hr with ⟨s, hsmem, hle1, hle2⟩
        refine ⟨s, ?_, by omega, by omega⟩
        simpa only [scanFrom, if_neg hc1, if_neg hc2] using hsmem

/-- A buffer with no 0F 05 / 0F 34 pair anywhere scans to no sites. -/
theorem scanFrom_eq_nil (bytes : List Nat)
    (h : ∀ i, i + 2 ≤ bytes.length →
      ¬(bytes.getD i 0 = 0x0f ∧
        (bytes.getD (i + 1) 0 = 0x05 ∨ bytes.getD (i + 1) 0 = 0x34))) :
    scanFrom bytes 0 = [] := by
  cases hs : scanFrom bytes 0 with
  | nil => rfl
  | cons s S =>
    exfalso
    have hmem : s ∈ scanFrom bytes 0 := by rw [hs]; exact List.mem_cons_self _ _
    obtain ⟨hb, h0, h1⟩ := scanFrom_sound_zero bytes s hmem
    refine h s.1 hb ⟨h0, ?_⟩
    cases hty : s.2
    · rw [hty] at h1
      exact Or.inl h1
    · rw [hty] at h1
      exact Or.inr h1

/-! ## Lemmas about the patch loop -/

/-- The first element of a chain with gaps of at least two precedes every
later element by at least two. -/
theorem chain_gap_forall : ∀ (S : List (Nat × SyscallType)) (s : Nat × SyscallType),
    List.Chain' (fun x y => x.1 + 2 ≤ y.1) (s :: S) → ∀ t ∈ S, s.1 + 2 ≤ t.1 := by
  intro S
  induction S with
  | nil => simp
  | cons u S ih =>
    intro s h t ht
    rw [List.chain'_cons] at h
    rcases List.mem_cons.mp ht with rfl | ht
    · exact h.1
    · have := ih u h.2 t ht
      omega

/-- getD through a set at a different index. -/
theorem getD_set_ne (l : List Nat) (i j v d : Nat) (h : i ≠ j) :
    (l.set i v).getD j d = l.getD j d := by
  rw [List.getD_eq_getElem?_getD, List.getD_eq_getElem?_getD, List.getElem?_set_ne h]

/-- getD through a set at the same (in-range) index. -/
theorem getD_set_self (l : List Nat) (i v d : Nat) (h : i < l.length) :
    (l.set i v).getD i d = v := by
  rw [List.getD_eq_getElem?_getD, List.getElem?_set_self h]
  rfl

/-- What the patch loop does to the bytes, for any starting counters:
given that every site lies fully inside the buffer with its scan-time
bytes still in place and that the sites are two apart in order, the loop
preserves the length, writes FF D0 over every site, and leaves every
other byte unchanged. -/
theorem patch_fold_mem : ∀ (S : List (Nat × SyscallType)) (mem : List Nat) (a b c : Nat),
    (∀ s ∈ S, s.1 + 2 ≤ mem.length ∧ mem.getD s.1 0 = 0x0f ∧
      mem.getD (s.1 + 1) 0 = sitePat s.2) →
    List.Chain' (fun x y => x.1 + 2 ≤ y.1) S →
    (S.foldl patchStep ⟨mem, a, b, c⟩).mem.length = mem.length ∧
    (∀ s ∈ S, (S.foldl patchStep ⟨mem, a, b, c⟩).mem.getD s.1 0 = 0xff ∧
      (S.foldl patchStep ⟨mem, a, b, c⟩).mem.getD (s.1 + 1) 0 = 0xd0) ∧
    (∀ i, (∀ s ∈ S, i ≠ s.1 ∧ i ≠ s.1 + 1) →
      (S.foldl patchStep ⟨mem, a, b, c⟩).mem.getD i 0 = mem.getD i 0) := by
  intro S
  induction S with
  | nil =>
    intro mem a b c _ _
    exact ⟨rfl, by simp, fun i _ => rfl⟩
  | cons s0 S ih =>
    intro mem a b c hsites hchain
    obtain ⟨hlen0, hb0, hb1⟩ := hsites s0 (List.mem_cons_self _ _)
    have hcond : mem.getD s0.1 0 = 0x0f ∧
        (mem.getD (s0.1 + 1) 0 = 0x05 ∨ mem.getD (s0.1 + 1) 0 = 0x34) := by
      refine ⟨hb0, ?_⟩
      cases hty : s0.2
      · rw [hty] at hb1
        exact Or.inl hb1
      · rw [hty] at hb1
        exact Or.inr hb1
    have hgap := chain_gap_forall S s0 hchain
    set mem1 := (mem.set s0.1 0xff).set (s0.1 + 1) 0xd0 with hmem1
    have hstep : patchStep ⟨mem, a, b, c⟩ s0 =
        ⟨mem1, a + 1,
         if s0.2 = SyscallType.Syscall then b + 1 else b,
         if s0.2 = SyscallType.Sysenter then c + 1 else c⟩ := by
      rw [patchStep, if_pos hcond]
    have hlen1 : mem1.length = mem.length := by
      rw [hmem1, List.length_set, List.length_set]
    have hmem1_at : ∀ j, j ≠ s0.1 → j ≠ s0.1 + 1 → mem1.getD j 0 = mem.getD j 0 := by
      intro j hj0 hj1
      rw [hmem1, getD_set_ne _ _ _ _ _ (fun h => hj1 h.symm),
        getD_set_ne _ _ _ _ _ (fun h => hj0 h.symm)]
    have hsites1 : ∀ s ∈ S, s.1 + 2 ≤ mem1.length ∧ mem1.getD s.1 0 = 0x0f ∧
        mem1.getD (s.1 + 1) 0 = sitePat s.2 := by
      intro s hs
      obtain ⟨hl, hx, hy⟩ := hsites s (List.mem_cons_of_mem _ hs)
      have hg := hgap s hs
      refine ⟨by omega, ?_, ?_⟩
      · rw [hmem1_at s.1 (by omega) (by omega)]
        exact hx
      · rw [hmem1_at (s.1 + 1) (by omega) (by omega)]
        exact hy
    have hrec := ih mem1 (a + 1)
      (if s0.2 = SyscallType.Syscall then b + 1 else b)
      (if s0.2 = SyscallType.Sysenter then c + 1 else c)
      hsites1 (List.Chain'.tail hchain)
    obtain ⟨rlen, rsites, rframe⟩ := hrec
    have hfold : (s0 :: S).foldl patchStep ⟨mem, a, b, c⟩ =
        S.foldl patchStep ⟨mem1, a + 1,
          if s0.2 = SyscallType.Syscall then b + 1 else b,
          if s0.2 = SyscallType.Sysenter then c + 1 else c⟩ := by
      rw [List.foldl_cons, hstep]
    rw [hfold]
    refine ⟨by rw [rlen, hlen1], ?_, ?_⟩
    · intro s hs
      rcases List.mem_cons.mp hs with rfl | hs
      · have hframe0 := rframe s.1 (fun t ht => by have := hgap t ht; omega)
        have hframe1 := rframe (s.1 + 1) (fun t ht => by have := hgap t ht; omega)
        rw [hframe0, hframe1]
        constructor
        · rw [hmem1, getD_set_ne _ _ _ _ _ (by omega), getD_set_self _ _ _ _ (by omega)]
        · rw [hmem1, getD_set_self _ _ _ _ (by rw [List.length_set]; omega)]
      · exact rsites s hs
    · intro i hi
      have hi0 := hi s0 (List.mem_cons_self _ _)
      have hrest : ∀ s ∈ S, i ≠ s.1 ∧ i ≠ s.1 + 1 :=
        fun s hs => hi s (List.mem_cons_of_mem _ hs)
      rw [rframe i hrest, hmem1_at i hi0.1 hi0.2]

/-- After the patch loop has processed the sites the scanner reported on
a buffer, the buffer contains no 0F 05 / 0F 34 pair anywhere. -/
theorem patched_patternFree (mem : List Nat) (a b c : Nat) :
    ∀ i, i + 2 ≤ ((scanFrom mem 0).foldl patchStep ⟨mem, a, b, c⟩).mem.length →
      ¬(((scanFrom mem 0).foldl patchStep ⟨mem, a, b, c⟩).mem.getD i 0 = 0x0f ∧
        (((scanFrom mem 0).foldl patchStep ⟨mem, a, b, c⟩).mem.getD (i + 1) 0 = 0x05 ∨
         ((scanFrom mem 0).foldl patchStep ⟨mem, a, b, c⟩).mem.getD (i + 1) 0 = 0x34)) := by
  intro i hi hpat
  obtain ⟨flen, fsites, fframe⟩ :=
    patch_fold_mem (scanFrom mem 0) mem a b c (scanFrom_sound_zero mem) (scanFrom_chain mem 0)
  set F := ((scanFrom mem 0).foldl patchStep ⟨mem, a, b, c⟩).mem with hF
  have hnot_site : ∀ j, (F.getD j 0 = 0x0f ∨ F.getD j 0 = 0x05 ∨ F.getD j 0 = 0x34) →
      ∀ s ∈ scanFrom mem 0, j ≠ s.1 ∧ j ≠ s.1 + 1 := by
    intro j hj s hs
    obtain ⟨hf0, hf1⟩ := fsites s hs
    constructor
    · intro heq
      rw [heq, hf0] at hj
      rcases hj with h | h | h <;> exact absurd h (by decide)
    · intro heq
      rw [heq, hf1] at hj
      rcases hj with h | h | h <;> exact absurd h (by decide)
  have hout0 : ∀ s ∈ scanFrom mem 0, i ≠ s.1 ∧ i ≠ s.1 + 1 :=
    hnot_site i (Or.inl hpat.1)
  have hout1 : ∀ s ∈ scanFrom mem 0, i + 1 ≠ s.1 ∧ i + 1 ≠ s.1 + 1 :=
    hnot_site (i + 1) (Or.inr hpat.2)
  have horig0 : mem.getD i 0 = 0x0f := by
    rw [← fframe i hout0]
    exact hpat.1
  have horig1 : mem.getD (i + 1) 0 = 0x05 ∨ mem.getD (i + 1) 0 = 0x34 := by
    rw [← fframe (i + 1) hout1]
    exact hpat.2
  have hcomp := scanFrom_complete mem 0 i (by rw [flen] at hi; exact hi) horig0 horig1
  rcases hcomp with ⟨s, hsmem, hle1, hle2⟩
  have := hout0 s hsmem
  omega

/-! ## Path lemmas for rewrite_region -/

/-- Bridge from the propositional to the boolean prefix test. -/
theorem isPrefixOf_of_isPre {α : Type} [BEq α] [LawfulBEq α] {l₁ l₂ : List α}
    (h : l₁ <+: l₂) : l₁.isPrefixOf l₂ = true :=
  List.isPrefixOf_iff_prefix.mpr h

/-- Bridge from the boolean to the propositional prefix test. -/
theorem isPre_of_isPrefixOf {α : Type} [BEq α] [LawfulBEq α] {l₁ l₂ : List α}
    (h : l₁.isPrefixOf l₂ = true) : l₁ <+: l₂ :=
  List.isPrefixOf_iff_prefix.mp h

/-- A non-empty list is not isEmpty. -/
theorem isEmpty_false_of_ne_nil {α : Type} {l : List α} (h : l ≠ []) :
    l.isEmpty = false := by
  cases l with
  | nil => exact absurd rfl h
  | cons x xs => rfl

/-- rewrite_region on a non-executable region: count the scan and return 0. -/
theorem rewrite_region_not_exec (ps : Nat) (p1 p2 : Bool) (config : RewriteConfig)
    (stats : RewriteStats) (region : MemoryRegion) (mem : List Nat)
    (h : region.executable = false) :
    rewrite_region ps p1 p2 config stats region mem =
      ⟨.ok 0, { stats with regions_scanned := stats.regions_scanned + 1 }, mem⟩ := by
  simp [rewrite_region, MemoryRegion.is_executable, h]

/-- rewrite_region on an excluded executable region: skip. -/
theorem rewrite_region_excluded (ps : Nat) (p1 p2 : Bool) (config : RewriteConfig)
    (stats : RewriteStats) (region : MemoryRegion) (mem : List Nat)
    (hex : region.executable = true) (hskip : config.is_excluded region = true) :
    rewrite_region ps p1 p2 config stats region mem =
      ⟨.ok 0,
       { stats with regions_scanned := stats.regions_scanned + 1,
                    regions_skipped := stats.regions_skipped + 1 },
       mem⟩ := by
  simp [rewrite_region, MemoryRegion.is_executable, hex, hskip]

/-- rewrite_region when the scan reports no site: return 0, change nothing. -/
theorem rewrite_region_no_sites (ps : Nat) (p1 p2 : Bool) (config : RewriteConfig)
    (stats : RewriteStats) (region : MemoryRegion) (mem : List Nat)
    (hex : region.executable = true) (hskip : config.is_excluded region = false)
    (hempty : find_syscalls region.start mem = []) :
    rewrite_region ps p1 p2 config stats region mem =
      ⟨.ok 0, { stats with regions_scanned := stats.regions_scanned + 1 }, mem⟩ := by
  simp [rewrite_region, MemoryRegion.is_executable, hex, hskip, hempty]

/-- rewrite_region in dry-run mode with at least one site. -/
theorem rewrite_region_dry (ps : Nat) (p1 p2 : Bool) (config : RewriteConfig)
    (stats : RewriteStats) (region : MemoryRegion) (mem : List Nat)
    (hex : region.executable = true) (hskip : config.is_excluded region = false)
    (hne : find_syscalls region.start mem ≠ []) (hdry : config.dry_run = true) :
    rewrite_region ps p1 p2 config stats region mem =
      ⟨.ok (find_syscalls region.start mem).length,
       { stats with regions_scanned := stats.regions_scanned + 1,
                    syscalls_replaced :=
                      stats.syscalls_replaced + (find_syscalls region.start mem).length },
       mem⟩ := by
  simp [rewrite_region, MemoryRegion.is_executable, hex, hskip,
    isEmpty_false_of_ne_nil hne, hdry]

/-- rewrite_region on the patching path (sites found, not dry-run, the
aligned base is non-null and the first mprotect succeeded). -/
theorem rewrite_region_patch (ps : Nat) (p1 p2 : Bool) (config : RewriteConfig)
    (stats : RewriteStats) (region : MemoryRegion) (mem : List Nat)
    (hex : region.executable = true) (hskip : config.is_excluded region = false)
    (hne : find_syscalls region.start mem ≠ []) (hdry : config.dry_run = false)
    (hal : region.start / ps * ps ≠ 0) (hp1 : p1 = true) :
    rewrite_region ps p1 p2 config stats region mem =
      (let acc := (find_syscalls region.start mem).foldl patchStep ⟨mem, 0, 0, 0⟩
       let stats1 : RewriteStats :=
        { stats with
          regions_scanned := stats.regions_scanned + 1
          syscalls_replaced := stats.syscalls_replaced + acc.sys
          sysenters_replaced := stats.sysenters_replaced + acc.sysen }
       if p2 then
         ⟨.ok acc.replaced,
          if acc.replaced > 0 then
            { stats1 with regions_rewritten := stats1.regions_rewritten + 1 }
          else stats1,
          acc.mem⟩
       else ⟨.error .ProtectError, stats1, acc.mem⟩) := by
  cases p2 with
  | false =>
    simp [rewrite_region, MemoryRegion.is_executable, hex, hskip,
      isEmpty_false_of_ne_nil hne, hdry, hal, hp1]
  | true =>
    simp [rewrite_region, MemoryRegion.is_executable, hex, hskip,
      isEmpty_false_of_ne_nil hne, hdry, hal, hp1]

/-- rewrite_region when the aligned base is null: the NonNull check fails
before anything happens. -/
theorem rewrite_region_null_ptr (ps : Nat) (p1 p2 : Bool) (config : RewriteConfig)
    (stats : RewriteStats) (region : MemoryRegion) (mem : List Nat)
    (hex : region.executable = true) (hskip : config.is_excluded region = false)
    (hne : find_syscalls region.start mem ≠ []) (hdry : config.dry_run = false)
    (hal : region.start / ps * ps = 0) :
    rewrite_region ps p1 p2 config stats region mem =
      ⟨.error (.Other "Invalid pointer"),
       { stats with regions_scanned := stats.regions_scanned + 1 }, mem⟩ := by
  simp [rewrite_region, MemoryRegion.is_executable, hex, hskip,
    isEmpty_false_of_ne_nil hne, hdry, hal]

/-- rewrite_region when the first mprotect fails: error before patching. -/
theorem rewrite_region_prot1_fail (ps : Nat) (p2 : Bool) (config : RewriteConfig)
    (stats : RewriteStats) (region : MemoryRegion) (mem : List Nat)
    (hex : region.executable = true) (hskip : config.is_excluded region = false)
    (hne : find_syscalls region.start mem ≠ []) (hdry : config.dry_run = false)
    (hal : region.start / ps * ps ≠ 0) :
    rewrite_region ps false p2 config stats region mem =
      ⟨.error .ProtectError,
       { stats with regions_scanned := stats.regions_scanned + 1 }, mem⟩ := by
  simp [rewrite_region, MemoryRegion.is_executable, hex, hskip,
    isEmpty_false_of_ne_nil hne, hdry, hal]

/-- On the scan-and-patch path a successful return forces the pointer
check and both mprotect calls to have succeeded. -/
theorem rewrite_region_ok_forces (ps : Nat) (p1 p2 : Bool) (config : RewriteConfig)
    (stats : RewriteStats) (region : MemoryRegion) (mem : List Nat) (n : Nat)
    (hex : region.executable = true) (hskip : config.is_excluded region = false)
    (hne : find_syscalls region.start mem ≠ []) (hdry : config.dry_run = false)
    (hok : (rewrite_region ps p1 p2 config stats region mem).result = .ok n) :
    region.start / ps * ps ≠ 0 ∧ p1 = true ∧ p2 = true := by
  by_cases hal : region.start / ps * ps = 0
  · rw [rewrite_region_null_ptr ps p1 p2 config stats region mem hex hskip hne hdry hal] at hok
    exact absurd hok (by simp)
  · cases p1 with
    | false =>
      rw [rewrite_region_prot1_fail ps p2 config stats region mem hex hskip hne hdry hal] at hok
      exact absurd hok (by simp)
    | true =>
      cases p2 with
      | false =>
        rw [rewrite_region_patch ps true false config stats region mem
          hex hskip hne hdry hal rfl] at hok
        exact absurd hok (by simp)
      | true => exact ⟨hal, rfl, rfl⟩

/-! ## Lemmas about the trampoline builder -/

/-- Sequentially writing a byte list that fits inside the buffer splices
it over the corresponding range. -/
theorem setRange_eq_splice : ∀ (bs : List Nat) (m : List Nat) (off : Nat),
    off + bs.length ≤ m.length →
    setRange m off bs = m.take off ++ bs ++ m.drop (off + bs.length)
  | [], m, off => by
    intro h
    simp [setRange]
  | b :: bs, m, off => by
    intro h
    simp only [List.length_cons] at h
    have hofflt : off < m.length := by omega
    have hrec := setRange_eq_splice bs (m.set off b) (off + 1)
      (by rw [List.length_set]; omega)
    rw [setRange, hrec]
    rw [List.set_eq_take_cons_drop b hofflt]
    have htake : (m.take off ++ b :: m.drop (off + 1)).take (off + 1) =
        m.take off ++ [b] := by
      rw [List.take_append_eq_append_take]
      have h1 : (m.take off).length = off := List.length_take_of_le (by omega)
      rw [h1]
      rw [List.take_of_length_le (by rw [h1]; omega)]
      have h2 : off + 1 - off = 1 := by omega
      rw [h2]
      rfl
    have hdrop : (m.take off ++ b :: m.drop (off + 1)).drop (off + 1 + bs.length) =
        m.drop (off + (bs.length + 1)) := by
      rw [List.drop_append_eq_append_drop]
      have h1 : (m.take off).length = off := List.length_take_of_le (by omega)
      rw [h1]
      rw [List.drop_eq_nil_of_le (by rw [h1]; omega)]
      have h2 : off + 1 + bs.length - off = bs.length + 1 := by omega
      rw [h2]
      simp only [List.nil_append, List.drop_succ_cons]
      rw [List.drop_drop]
      congr 1
      omega
    rw [htake, hdrop]
    simp

/-- setRange preserves the buffer length. -/
theorem setRange_length : ∀ (bs : List Nat) (m : List Nat) (off : Nat),
    (setRange m off bs).length = m.length
  | [], m, off => rfl
  | b :: bs, m, off => by
    rw [setRange, setRange_length bs, List.length_set]

/-- Two consecutive sequential writes are one sequential write of the
concatenation. -/
theorem setRange_setRange : ∀ (bs : List Nat) (m : List Nat) (off : Nat)
    (cs : List Nat) (off2 : Nat), off2 = off + bs.length →
    setRange (setRange m off bs) off2 cs = setRange m off (bs ++ cs)
  | [], m, off, cs, off2 => by
    intro h
    simp only [List.length_nil, Nat.add_zero] at h
    subst h
    simp [setRange]
  | b :: bs, m, off, cs, off2 => by
    intro h
    have harith : off2 = off + 1 + bs.length := by
      simp only [List.length_cons] at h
      omega
    rw [List.cons_append]
    simp only [setRange]
    exact setRange_setRange bs (m.set off b) (off + 1) cs off2 harith

/-- The offset-by-offset writes of generate_hook_stub are the sequential
write of the specification's instruction listing. -/
theorem generate_hook_stub_eq_listing (addr : Nat) (m : List Nat) :
    generate_hook_stub addr m = setRange m 0 (stubListing addr) := by
  simp only [generate_hook_stub]
  rw [setRange_setRange _ _ _ _ 49 (by rfl)]
  rw [setRange_setRange _ _ _ _ 47 (by rfl)]
  rw [setRange_setRange _ _ _ _ 45 (by rfl)]
  rw [setRange_setRange _ _ _ _ 43 (by rfl)]
  rw [setRange_setRange _ _ _ _ 42 (by rfl)]
  rw [setRange_setRange _ _ _ _ 41 (by rfl)]
  rw [setRange_setRange _ _ _ _ 40 (by rfl)]
  rw [setRange_setRange _ _ _ _ 36 (by rfl)]
  rw [setRange_setRange _ _ _ _ 32 (by rfl)]
  rw [setRange_setRange _ _ _ _ 29 (by rfl)]
  rw [setRange_setRange _ _ _ _ 21 (by rfl)]
  rw [setRange_setRange _ _ _ _ 19 (by rfl)]
  rw [setRange_setRange _ _ _ _ 14 (by rfl)]
  rw [setRange_setRange _ _ _ _ 10 (by rfl)]
  rw [setRange_setRange _ _ _ _ 9 (by rfl)]
  rw [setRange_setRange _ _ _ _ 8 (by rfl)]
  rw [setRange_setRange _ _ _ _ 7 (by rfl)]
  rw [setRange_setRange _ _ _ _ 6 (by rfl)]
  rw [setRange_setRange _ _ _ _ 4 (by rfl)]
  rw [setRange_setRange _ _ _ _ 2 (by rfl)]
  simp only [stubListing, enc_push_r9, enc_push_r8, enc_push_r10, enc_push_rdx,
    enc_push_rsi, enc_push_rdi, enc_push_rax, enc_sub_rsp_8, enc_lea_rdi_rsp_plus_8,
    enc_movabs_r11, enc_call_r11, enc_add_rsp_8, enc_pop_rdi, enc_pop_rsi,
    enc_pop_rdx, enc_pop_r10, enc_pop_r8, enc_pop_r9, enc_ret, List.append_assoc]

/-- The listing is fifty bytes long. -/
theorem stubListing_length (addr : Nat) : (stubListing addr).length = 50 := rfl

/-! ## The claims -/

/-- C2: For every executable region whose pathname begins with an excluded
prefix of the configuration, or whose half-open address range overlaps any
excluded range, rewrite_region increments regions_skipped by one, returns
Ok(0), and changes no bytes of the region. -/
theorem claim_C2_exclusion_soundness (ps : Nat) (p1 p2 : Bool) (config : RewriteConfig)
    (stats : RewriteStats) (region : MemoryRegion) (mem : List Nat)
    (hex : region.executable = true)
    (hmatch :
      (∃ path, region.pathname = some path ∧
        ∃ ep ∈ config.exclude_paths, pathComponents ep <+: pathComponents path) ∨
      (∃ er ∈ config.exclude_ranges, region.start < er.2 ∧ er.1 < region.end_)) :
    rewrite_region ps p1 p2 config stats region mem =
      ⟨.ok 0,
       { stats with regions_scanned := stats.regions_scanned + 1,
                    regions_skipped := stats.regions_skipped + 1 },
       mem⟩ := by
  apply rewrite_region_excluded ps p1 p2 config stats region mem hex
  rcases hmatch with ⟨path, hp, ep, hep, hpre⟩ | ⟨er, her, h1, h2⟩
  · simp only [RewriteConfig.is_excluded, hp, Bool.or_eq_true, List.any_eq_true]
    exact Or.inl ⟨ep, hep, Or.inl (isPrefixOf_of_isPre hpre)⟩
  · simp only [RewriteConfig.is_excluded, Bool.or_eq_true, List.any_eq_true,
      Bool.and_eq_true, decide_eq_true_eq]
    exact Or.inr ⟨er, her, h1, h2⟩

/-- Witness for C2 at a concrete excluded region. -/
theorem claim_C2_witness :
    rewrite_region 4096 true true configDemoExcl RewriteStats.default
      regionDemoLib memDemo =
      ⟨.ok 0, ⟨1, 0, 0, 0, 1⟩, memDemo⟩ :=
  claim_C2_exclusion_soundness 4096 true true configDemoExcl RewriteStats.default
    regionDemoLib memDemo rfl
    (Or.inl ⟨"/lib/libc.so.6", rfl, "/lib", by simp [configDemoExcl],
      isPre_of_isPrefixOf (by rfl)⟩)

/-- C9: For every hook function f, calling __hook_init(f) and then
get_hook_fn() returns f itself, so invoking the returned pointer on a
zeroed record produces the same result as calling f directly; and before
any __hook_init call the slot holds the default hook, which passes the
record through to the raw syscall path. -/
theorem claim_C9_hook_roundtrip :
    (∀ slot f : HookFn, get_hook_fn (hook_init slot f) = f) ∧
    (∀ (slot f : HookFn) (k : KernelFn) (st : ThreadState),
      get_hook_fn (hook_init slot f) k SyscallRegs.zero st = f k SyscallRegs.zero st) ∧
    get_hook_fn HOOK_FUNCTION_initial = default_hook ∧
    (∀ (k : KernelFn) (regs : SyscallRegs) (st : ThreadState),
      default_hook k regs st = (raw_syscall k regs, regs, st)) :=
  ⟨fun _ _ => rfl, fun _ _ _ _ => rfl, rfl, fun _ _ _ => rfl⟩

/-- C10: For every region processed with dry_run set whose scan finds at
least one site, rewrite_region adds the total number of found sites (of
both kinds alike) to the syscalls_replaced counter, leaves
sysenters_replaced and regions_rewritten unchanged, returns that total,
and writes no bytes. -/
theorem claim_C10_dry_run (ps : Nat) (p1 p2 : Bool) (config : RewriteConfig)
    (stats : RewriteStats) (region : MemoryRegion) (mem : List Nat)
    (hdry : config.dry_run = true) (hex : region.executable = true)
    (hskip : config.is_excluded region = false)
    (hne : find_syscalls region.start mem ≠ []) :
    (rewrite_region ps p1 p2 config stats region mem).result =
      .ok (find_syscalls region.start mem).length ∧
    (rewrite_region ps p1 p2 config stats region mem).stats.syscalls_replaced =
      stats.syscalls_replaced + (find_syscalls region.start mem).length ∧
    (rewrite_region ps p1 p2 config stats region mem).stats.sysenters_replaced =
      stats.sysenters_replaced ∧
    (rewrite_region ps p1 p2 config stats region mem).stats.regions_rewritten =
      stats.regions_rewritten ∧
    (rewrite_region ps p1 p2 config stats region mem).mem = mem := by
  rw [rewrite_region_dry ps p1 p2 config stats region mem hex hskip hne hdry]
  exact ⟨rfl, rfl, rfl, rfl, rfl⟩

/-- Witness for C10 at a concrete dry-run call. -/
theorem claim_C10_witness :
    (rewrite_region 4096 true true configDemoDry RewriteStats.default
      regionDemo memDemo).result =
      .ok (find_syscalls regionDemo.start memDemo).length ∧
    (rewrite_region 4096 true true configDemoDry RewriteStats.default
      regionDemo memDemo).stats.syscalls_replaced =
      RewriteStats.default.syscalls_replaced +
        (find_syscalls regionDemo.start memDemo).length ∧
    (rewrite_region 4096 true true configDemoDry RewriteStats.default
      regionDemo memDemo).stats.sysenters_replaced =
      RewriteStats.default.sysenters_replaced ∧
    (rewrite_region 4096 true true configDemoDry RewriteStats.default
      regionDemo memDemo).stats.regions_rewritten =
      RewriteStats.default.regions_rewritten ∧
    (rewrite_region 4096 true true configDemoDry RewriteStats.default
      regionDemo memDemo).mem = memDemo :=
  claim_C10_dry_run 4096 true true configDemoDry RewriteStats.default
    regionDemo memDemo rfl rfl rfl (by decide)

/-- C3: For every call to hook_entry on a thread whose reentrancy flag is
set, the user hook is not invoked (the outcome does not depend on the
installed hook), the raw syscall path is invoked on the record and its
result returned unchanged, and the flag is not transitioned; for every
call on a thread whose flag is clear, the flag is set before the user
hook is called and cleared after it returns, so within one thread at most
one user-hook invocation is ever active. -/
theorem claim_C3_reentrancy :
    (∀ (k : KernelFn) (slot slot2 : HookFn) (regs : SyscallRegs) (st : ThreadState),
      st.in_hook = true →
        hook_entry k slot regs st =
          (raw_syscall k regs, regs,
           { st with hook_entry_call_count := st.hook_entry_call_count + 1 }) ∧
        hook_entry k slot regs st = hook_entry k slot2 regs st) ∧
    (∀ (k : KernelFn) (slot : HookFn) (regs : SyscallRegs) (st : ThreadState),
      st.in_hook = false →
        hook_entry k slot regs st =
          (let out := get_hook_fn slot k regs
            { st with in_hook := true,
                      hook_entry_call_count := st.hook_entry_call_count + 1 }
           (out.1, out.2.1, { out.2.2 with in_hook := false })) ∧
        (hook_entry k slot regs st).2.2.in_hook = false) := by
  constructor
  · intro k slot slot2 regs st h
    constructor
    · simp [hook_entry, h]
    · simp [hook_entry, h]
  · intro k slot regs st h
    constructor
    · simp [hook_entry, h]
    · simp [hook_entry, h]

/-- Witness for C3: a flagged call takes the raw path; an unflagged call
runs the demonstration hook with the flag set and clears it again. -/
theorem claim_C3_witness :
    hook_entry kernelDemo hookDemo SyscallRegs.zero ⟨true, 0⟩ =
      (raw_syscall kernelDemo SyscallRegs.zero, SyscallRegs.zero,
       { ThreadState.mk true 0 with hook_entry_call_count := 0 + 1 }) ∧
    (hook_entry kernelDemo hookDemo SyscallRegs.zero ⟨false, 0⟩).2.2.in_hook = false :=
  ⟨(claim_C3_reentrancy.1 kernelDemo hookDemo hookDemo SyscallRegs.zero ⟨true, 0⟩ rfl).1,
   (claim_C3_reentrancy.2 kernelDemo hookDemo SyscallRegs.zero ⟨false, 0⟩ rfl).2⟩

/-- C1: For every memory region and every site reported by the scanner in
it, a successful non-dry-run call to rewrite_region overwrites exactly
the two bytes at that site (which still read 0F 05 or 0F 34) with FF D0,
so that afterwards no reported site reads 0F 05 or 0F 34 and every such
site reads FF D0, while every byte of the region outside the reported
two-byte sites is unchanged. -/
theorem claim_C1_replacement_fidelity (ps : Nat) (p1 p2 : Bool) (config : RewriteConfig)
    (stats : RewriteStats) (region : MemoryRegion) (mem : List Nat) (n : Nat)
    (hex : region.executable = true) (hskip : config.is_excluded region = false)
    (hdry : config.dry_run = false)
    (hok : (rewrite_region ps p1 p2 config stats region mem).result = .ok n) :
    (rewrite_region ps p1 p2 config stats region mem).mem.length = mem.length ∧
    (∀ s ∈ find_syscalls region.start mem,
      (mem.getD s.1 0 = 0x0f ∧
        (mem.getD (s.1 + 1) 0 = 0x05 ∨ mem.getD (s.1 + 1) 0 = 0x34)) ∧
      (rewrite_region ps p1 p2 config stats region mem).mem.getD s.1 0 = 0xff ∧
      (rewrite_region ps p1 p2 config stats region mem).mem.getD (s.1 + 1) 0 = 0xd0 ∧
      ¬((rewrite_region ps p1 p2 config stats region mem).mem.getD s.1 0 = 0x0f ∧
        ((rewrite_region ps p1 p2 config stats region mem).mem.getD (s.1 + 1) 0 = 0x05 ∨
         (rewrite_region ps p1 p2 config stats region mem).mem.getD (s.1 + 1) 0 = 0x34))) ∧
    (∀ i, (∀ s ∈ find_syscalls region.start mem, i ≠ s.1 ∧ i ≠ s.1 + 1) →
      (rewrite_region ps p1 p2 config stats region mem).mem.getD i 0 = mem.getD i 0) := by
  by_cases hsites : find_syscalls region.start mem = []
  · rw [rewrite_region_no_sites ps p1 p2 config stats region mem hex hskip hsites]
    refine ⟨rfl, ?_, fun i _ => rfl⟩
    rw [hsites]
    intro s hs
    exact absurd hs (List.not_mem_nil s)
  · obtain ⟨hal, hp1, hp2⟩ :=
      rewrite_region_ok_forces ps p1 p2 config stats region mem n hex hskip hsites hdry hok
    subst hp1
    subst hp2
    have hmem : (rewrite_region ps true true config stats region mem).mem =
        ((find_syscalls region.start mem).foldl patchStep ⟨mem, 0, 0, 0⟩).mem := by
      rw [rewrite_region_patch ps true true config stats region mem
        hex hskip hsites hdry hal rfl]
      by_cases hz :
          ((find_syscalls region.start mem).foldl patchStep ⟨mem, 0, 0, 0⟩).replaced > 0
      · simp [hz]
      · simp [hz]
    rw [hmem, find_syscalls_eq_scanFrom]
    obtain ⟨flen, fsites, fframe⟩ :=
      patch_fold_mem (scanFrom mem 0) mem 0 0 0 (scanFrom_sound_zero mem) (scanFrom_chain mem 0)
    refine ⟨flen, ?_, fframe⟩
    intro s hs
    obtain ⟨hb, h0, h1⟩ := scanFrom_sound_zero mem s hs
    obtain ⟨hf0, hf1⟩ := fsites s hs
    refine ⟨⟨h0, ?_⟩, hf0, hf1, ?_⟩
    · cases hty : s.2
      · rw [hty] at h1
        exact Or.inl h1
      · rw [hty] at h1
        exact Or.inr h1
    · intro hcontra
      rw [hf0] at hcontra
      exact absurd hcontra.1 (by decide)

/-- Witness for C1 at a concrete region holding one syscall instruction. -/
theorem claim_C1_witness :
    (rewrite_region 4096 true true configDemo RewriteStats.default
      regionDemo memDemo).mem.length = memDemo.length ∧
    (∀ s ∈ find_syscalls regionDemo.start memDemo,
      (memDemo.getD s.1 0 = 0x0f ∧
        (memDemo.getD (s.1 + 1) 0 = 0x05 ∨ memDemo.getD (s.1 + 1) 0 = 0x34)) ∧
      (rewrite_region 4096 true true configDemo RewriteStats.default
        regionDemo memDemo).mem.getD s.1 0 = 0xff ∧
      (rewrite_region 4096 true true configDemo RewriteStats.default
        regionDemo memDemo).mem.getD (s.1 + 1) 0 = 0xd0 ∧
      ¬((rewrite_region 4096 true true configDemo RewriteStats.default
          regionDemo memDemo).mem.getD s.1 0 = 0x0f ∧
        ((rewrite_region 4096 true true configDemo RewriteStats.default
            regionDemo memDemo).mem.getD (s.1 + 1) 0 = 0x05 ∨
         (rewrite_region 4096 true true configDemo RewriteStats.default
            regionDemo memDemo).mem.getD (s.1 + 1) 0 = 0x34))) ∧
    (∀ i, (∀ s ∈ find_syscalls regionDemo.start memDemo, i ≠ s.1 ∧ i ≠ s.1 + 1) →
      (rewrite_region 4096 true true configDemo RewriteStats.default
        regionDemo memDemo).mem.getD i 0 = memDemo.getD i 0) :=
  claim_C1_replacement_fidelity 4096 true true configDemo RewriteStats.default
    regionDemo memDemo 1 rfl rfl rfl rfl

/-- C5 as stated is false: in dry-run mode a second rewrite_region call on
the same (unchanged) region returns the same positive count again and
adds it to the statistics a second time. -/
theorem claim_C5_counterexample :
    (rewrite_region 4096 true true configDemoDry RewriteStats.default
      regionDemo memDemo).result = .ok 1 ∧
    (rewrite_region 4096 true true configDemoDry
      (rewrite_region 4096 true true configDemoDry RewriteStats.default
        regionDemo memDemo).stats
      regionDemo
      (rewrite_region 4096 true true configDemoDry RewriteStats.default
        regionDemo memDemo).mem).result = .ok 1 ∧
    (rewrite_region 4096 true true configDemoDry
      (rewrite_region 4096 true true configDemoDry RewriteStats.default
        regionDemo memDemo).stats
      regionDemo
      (rewrite_region 4096 true true configDemoDry RewriteStats.default
        regionDemo memDemo).mem).stats.syscalls_replaced =
    (rewrite_region 4096 true true configDemoDry RewriteStats.default
      regionDemo memDemo).stats.syscalls_replaced + 1 :=
  ⟨rfl, rfl, rfl⟩

/-- C5 amended: when dry-run is not set and the first call returns
successfully, a second rewrite_region call on the same region replaces no
additional sites: it returns Ok(0), leaves the syscall and sysenter
replacement counters unchanged, and leaves the bytes unchanged, because
the scanner finds no syscall or sysenter instruction in a buffer the
first call already rewrote. -/
theorem claim_C5_idempotence_amended (ps : Nat) (p1 p2 q1 q2 : Bool)
    (config : RewriteConfig) (stats : RewriteStats) (region : MemoryRegion)
    (mem : List Nat) (n : Nat) (hdry : config.dry_run = false)
    (hok : (rewrite_region ps p1 p2 config stats region mem).result = .ok n) :
    (rewrite_region ps q1 q2 config
      (rewrite_region ps p1 p2 config stats region mem).stats region
      (rewrite_region ps p1 p2 config stats region mem).mem).result = .ok 0 ∧
    (rewrite_region ps q1 q2 config
      (rewrite_region ps p1 p2 config stats region mem).stats region
      (rewrite_region ps p1 p2 config stats region mem).mem).stats.syscalls_replaced =
      (rewrite_region ps p1 p2 config stats region mem).stats.syscalls_replaced ∧
    (rewrite_region ps q1 q2 config
      (rewrite_region ps p1 p2 config stats region mem).stats region
      (rewrite_region ps p1 p2 config stats region mem).mem).stats.sysenters_replaced =
      (rewrite_region ps p1 p2 config stats region mem).stats.sysenters_replaced ∧
    (rewrite_region ps q1 q2 config
      (rewrite_region ps p1 p2 config stats region mem).stats region
      (rewrite_region ps p1 p2 config stats region mem).mem).mem =
      (rewrite_region ps p1 p2 config stats region mem).mem := by
  by_cases hex : region.executable = true
  · by_cases hskip : config.is_excluded region = true
    · rw [rewrite_region_excluded ps p1 p2 config stats region mem hex hskip]
      rw [rewrite_region_excluded ps q1 q2 config _ region mem hex hskip]
      exact ⟨rfl, rfl, rfl, rfl⟩
    · rw [Bool.not_eq_true] at hskip
      by_cases hsites : find_syscalls region.start mem = []
      · rw [rewrite_region_no_sites ps p1 p2 config stats region mem hex hskip hsites]
        rw [rewrite_region_no_sites ps q1 q2 config _ region mem hex hskip hsites]
        exact ⟨rfl, rfl, rfl, rfl⟩
      · obtain ⟨hal, hp1, hp2⟩ := rewrite_region_ok_forces ps p1 p2 config stats
          region mem n hex hskip hsites hdry hok
        subst hp1
        subst hp2
        have hmem : (rewrite_region ps true true config stats region mem).mem =
            ((scanFrom mem 0).foldl patchStep ⟨mem, 0, 0, 0⟩).mem := by
          rw [rewrite_region_patch ps true true config stats region mem
            hex hskip hsites hdry hal rfl, find_syscalls_eq_scanFrom]
          by_cases hz : ((scanFrom mem 0).foldl patchStep ⟨mem, 0, 0, 0⟩).replaced > 0
          · simp [hz, find_syscalls_eq_scanFrom]
          · simp [hz, find_syscalls_eq_scanFrom]
        have hnone : find_syscalls region.start
            (rewrite_region ps true true config stats region mem).mem = [] := by
          rw [find_syscalls_eq_scanFrom, hmem]
          exact scanFrom_eq_nil _ (patched_patternFree mem 0 0 0)
        rw [rewrite_region_no_sites ps q1 q2 config _ region _ hex hskip hnone]
        exact ⟨rfl, rfl, rfl, rfl⟩
  · rw [Bool.not_eq_true] at hex
    rw [rewrite_region_not_exec ps p1 p2 config stats region mem hex]
    rw [rewrite_region_not_exec ps q1 q2 config _ region mem hex]
    exact ⟨rfl, rfl, rfl, rfl⟩

/-- Witness for C5 amended: the concrete first call patches the one site;
the second call finds nothing and reports zero. -/
theorem claim_C5_witness :
    (rewrite_region 4096 true true configDemo
      (rewrite_region 4096 true true configDemo RewriteStats.default
        regionDemo memDemo).stats regionDemo
      (rewrite_region 4096 true true configDemo RewriteStats.default
        regionDemo memDemo).mem).result = .ok 0 ∧
    (rewrite_region 4096 true true configDemo
      (rewrite_region 4096 true true configDemo RewriteStats.default
        regionDemo memDemo).stats regionDemo
      (rewrite_region 4096 true true configDemo RewriteStats.default
        regionDemo memDemo).mem).stats.syscalls_replaced =
      (rewrite_region 4096 true true configDemo RewriteStats.default
        regionDemo memDemo).stats.syscalls_replaced ∧
    (rewrite_region 4096 true true configDemo
      (rewrite_region 4096 true true configDemo RewriteStats.default
        regionDemo memDemo).stats regionDemo
      (rewrite_region 4096 true true configDemo RewriteStats.default
        regionDemo memDemo).mem).stats.sysenters_replaced =
      (rewrite_region 4096 true true configDemo RewriteStats.default
        regionDemo memDemo).stats.sysenters_replaced ∧
    (rewrite_region 4096 true true configDemo
      (rewrite_region 4096 true true configDemo RewriteStats.default
        regionDemo memDemo).stats regionDemo
      (rewrite_region 4096 true true configDemo RewriteStats.default
        regionDemo memDemo).mem).mem =
      (rewrite_region 4096 true true configDemo RewriteStats.default
        regionDemo memDemo).mem :=
  claim_C5_idempotence_amended 4096 true true true true configDemo
    RewriteStats.default regionDemo memDemo 1 rfl rfl

/-- C6 as stated is false: when the restoring mprotect call fails after
patching, rewrite_region returns an error although syscalls_replaced has
already been incremented for the patched site. -/
theorem claim_C6_counterexample :
    (rewrite_region 4096 true false configDemo RewriteStats.default
      regionDemo memDemo).result = .error .ProtectError ∧
    RewriteStats.default.syscalls_replaced = 0 ∧
    (rewrite_region 4096 true false configDemo RewriteStats.default
      regionDemo memDemo).stats.syscalls_replaced = 1 :=
  ⟨rfl, rfl, rfl⟩

/-- C6 amended: whenever rewrite_region returns an error,
regions_rewritten has not been incremented; and whenever the error
occurred before any patching — the pointer check failing or the first
protection change failing — syscalls_replaced and sysenters_replaced are
also unchanged and no bytes have been written.  (A failure of the
restoring protection change leaves the per-instruction counters
reflecting the patches that were already applied.) -/
theorem claim_C6_error_counters_amended (ps : Nat) (p1 p2 : Bool)
    (config : RewriteConfig) (stats : RewriteStats) (region : MemoryRegion)
    (mem : List Nat) (e : RewriteError)
    (herr : (rewrite_region ps p1 p2 config stats region mem).result = .error e) :
    (rewrite_region ps p1 p2 config stats region mem).stats.regions_rewritten =
      stats.regions_rewritten ∧
    ((p1 = false ∨ region.start / ps * ps = 0) →
      (rewrite_region ps p1 p2 config stats region mem).stats.syscalls_replaced =
        stats.syscalls_replaced ∧
      (rewrite_region ps p1 p2 config stats region mem).stats.sysenters_replaced =
        stats.sysenters_replaced ∧
      (rewrite_region ps p1 p2 config stats region mem).mem = mem) := by
  by_cases hex : region.executable = true
  · by_cases hskip : config.is_excluded region = true
    · rw [rewrite_region_excluded ps p1 p2 config stats region mem hex hskip] at herr ⊢
      exact absurd herr (by simp)
    · rw [Bool.not_eq_true] at hskip
      by_cases hsites : find_syscalls region.start mem = []
      · rw [rewrite_region_no_sites ps p1 p2 config stats region mem hex hskip hsites]
          at herr ⊢
        exact absurd herr (by simp)
      · by_cases hdry : config.dry_run = true
        · rw [rewrite_region_dry ps p1 p2 config stats region mem hex hskip hsites hdry]
            at herr ⊢
          exact absurd herr (by simp)
        · rw [Bool.not_eq_true] at hdry
          by_cases hal : region.start / ps * ps = 0
          · rw [rewrite_region_null_ptr ps p1 p2 config stats region mem
              hex hskip hsites hdry hal]
            exact ⟨rfl, fun _ => ⟨rfl, rfl, rfl⟩⟩
          · cases p1 with
            | false =>
              rw [rewrite_region_prot1_fail ps p2 config stats region mem
                hex hskip hsites hdry hal]
              exact ⟨rfl, fun _ => ⟨rfl, rfl, rfl⟩⟩
            | true =>
              cases p2 with
              | true =>
                rw [rewrite_region_patch ps true true config stats region mem
                  hex hskip hsites hdry hal rfl] at herr
                by_cases hz : ((find_syscalls region.start mem).foldl patchStep
                    ⟨mem, 0, 0, 0⟩).replaced > 0
                · simp [hz] at herr
                · simp [hz] at herr
              | false =>
                rw [rewrite_region_patch ps true false config stats region mem
                  hex hskip hsites hdry hal rfl]
                refine ⟨by simp, ?_⟩
                rintro (h | h)
                · exact absurd h (by simp)
                · exact absurd h hal
  · rw [Bool.not_eq_true] at hex
    rw [rewrite_region_not_exec ps p1 p2 config stats region mem hex] at herr ⊢
    exact absurd herr (by simp)

/-- Witness for C6 amended at a failing first mprotect call. -/
theorem claim_C6_witness :
    (rewrite_region 4096 false true configDemo RewriteStats.default
      regionDemo memDemo).stats.regions_rewritten =
      RewriteStats.default.regions_rewritten ∧
    (rewrite_region 4096 false true configDemo RewriteStats.default
      regionDemo memDemo).stats.syscalls_replaced =
      RewriteStats.default.syscalls_replaced ∧
    (rewrite_region 4096 false true configDemo RewriteStats.default
      regionDemo memDemo).stats.sysenters_replaced =
      RewriteStats.default.sysenters_replaced ∧
    (rewrite_region 4096 false true configDemo RewriteStats.default
      regionDemo memDemo).mem = memDemo :=
  let h := claim_C6_error_counters_amended 4096 false true configDemo
    RewriteStats.default regionDemo memDemo .ProtectError rfl
  ⟨h.1, (h.2 (Or.inl rfl)).1, (h.2 (Or.inl rfl)).2.1, (h.2 (Or.inl rfl)).2.2⟩

/-- C7 as stated is false: the parser reassembles the pathname by joining
the whitespace-separated fields with single spaces, so a doubled interior
space collapses and trailing whitespace disappears.  For the line
"0-1 r-xp 00000000 08:01 2 /a  b " the remainder after the first five
fields is "/a  b ", but the parsed pathname is "/a b". -/
theorem claim_C7_counterexample :
    (parse_maps_line "0-1 r-xp 00000000 08:01 2 /a  b ").map
      (fun r => r.pathname) = some (some "/a b") ∧
    ("/a b" : String) ≠ "/a  b " :=
  ⟨rfl, by decide⟩

/-- C7 amended: for every maps line the parser accepts with more than
five whitespace-separated fields, the pathname is the sixth and later
fields joined with single spaces (interior whitespace runs collapse and
leading/trailing whitespace is dropped). -/
theorem claim_C7_pathname_amended (line : String) (r : MemoryRegion)
    (h : parse_maps_line line = some r) (hlen : (splitWs line).length > 5) :
    r.pathname = some (String.mk (joinWith [' '] ((splitWs line).drop 5))) := by
  simp only [parse_maps_line] at h
  repeat' split at h
  all_goals try exact Option.noConfusion h
  all_goals rw [Option.some.injEq] at h
  all_goals subst h
  all_goals rfl

/-- Witness for C7 amended at a concrete line. -/
theorem claim_C7_witness :
    MemoryRegion.pathname ⟨0, 1, true, false, true, true, 0, "08:01", 2, some "/a b"⟩ =
      some (String.mk (joinWith [' ']
        ((splitWs "0-1 r-xp 00000000 08:01 2 /a b").drop 5))) :=
  claim_C7_pathname_amended "0-1 r-xp 00000000 08:01 2 /a b" _ rfl (by decide)

/-- C8 as stated is false: the parser performs no start < end validation,
so the line "2000-1000 r-xp 00000000 08:01 0" is accepted although its
region has start 0x2000 > end 0x1000. -/
theorem claim_C8_counterexample :
    (parse_maps_line "2000-1000 r-xp 00000000 08:01 0").map
      (fun r => decide (r.start < r.end_)) = some false :=
  rfl

/-- C8 amended: for every line the parser accepts, the produced region's
start and end are exactly the two hex address fields of the line, with no
validation of their order; the invariant start < end therefore holds
precisely for lines whose first address is numerically below the second,
and the parser also accepts lines violating it. -/
theorem claim_C8_addresses_amended (line : String) (r : MemoryRegion)
    (h : parse_maps_line line = some r) :
    parseNatRadix 16
        ((splitChars (fun c => c == '-') ((splitWs line).getD 0 []) []).getD 0 []) =
      some r.start ∧
    parseNatRadix 16
        ((splitChars (fun c => c == '-') ((splitWs line).getD 0 []) []).getD 1 []) =
      some r.end_ := by
  simp only [parse_maps_line] at h
  repeat' split at h
  all_goals try exact Option.noConfusion h
  all_goals rw [Option.some.injEq] at h
  all_goals subst h
  all_goals constructor <;> assumption

/-- Witness for C8 amended at the order-violating line. -/
theorem claim_C8_witness :
    parseNatRadix 16
        ((splitChars (fun c => c == '-')
          ((splitWs "2000-1000 r-xp 00000000 08:01 0").getD 0 []) []).getD 0 []) =
      some (MemoryRegion.start
        ⟨0x2000, 0x1000, true, false, true, true, 0, "08:01", 0, none⟩) ∧
    parseNatRadix 16
        ((splitChars (fun c => c == '-')
          ((splitWs "2000-1000 r-xp 00000000 08:01 0").getD 0 []) []).getD 1 []) =
      some (MemoryRegion.end_
        ⟨0x2000, 0x1000, true, false, true, true, 0, "08:01", 0, none⟩) :=
  claim_C8_addresses_amended "2000-1000 r-xp 00000000 08:01 0" _ rfl

/-- C4: For every buffer of length TRAMPOLINE_SIZE, generate_trampoline_code
fills bytes [0, MAX_SYSCALL_NR) with 0x90 and places at offset
MAX_SYSCALL_NR the stub encoding, in order: push r9; push r8; push r10;
push rdx; push rsi; push rdi; push rax; sub rsp,8; lea rdi,[rsp+8];
movabs r11, hook_entry_addr; call r11; add rsp,8; add rsp,8; pop rdi;
pop rsi; pop rdx; pop r10; pop r8; pop r9; ret — and the seven decoded
pushes lay the register record down in field order rax, rdi, rsi, rdx,
r10, r8, r9 from the lowest stack address upward. -/
theorem claim_C4_trampoline_layout (addr : Nat) (mem : List Nat)
    (hlen : mem.length = TRAMPOLINE_SIZE) :
    generate_trampoline_code addr mem =
      List.replicate MAX_SYSCALL_NR 0x90 ++
        (enc_push_r9 ++ enc_push_r8 ++ enc_push_r10 ++ enc_push_rdx ++ enc_push_rsi
          ++ enc_push_rdi ++ enc_push_rax ++ enc_sub_rsp_8 ++ enc_lea_rdi_rsp_plus_8
          ++ enc_movabs_r11 addr ++ enc_call_r11 ++ enc_add_rsp_8 ++ enc_add_rsp_8
          ++ enc_pop_rdi ++ enc_pop_rsi ++ enc_pop_rdx ++ enc_pop_r10 ++ enc_pop_r8
          ++ enc_pop_r9 ++ enc_ret) ++
        mem.drop (MAX_SYSCALL_NR + 50) ∧
    (∀ regs : SyscallRegs,
      stackRecordLowestFirst
        (decodePushes 7 ((generate_trampoline_code addr mem).drop MAX_SYSCALL_NR))
        regs = recordFields regs) := by
  have hlen' : mem.length = 4608 := by rw [hlen]; rfl
  have hnop : setRange mem 0 (List.replicate 512 0x90) =
      List.replicate 512 0x90 ++ mem.drop 512 := by
    rw [setRange_eq_splice _ _ _
      (by rw [List.length_replicate, hlen']; omega)]
    rw [List.take_zero, List.length_replicate, List.nil_append, Nat.zero_add]
  have hmain : generate_trampoline_code addr mem =
      List.replicate 512 0x90 ++ (stubListing addr ++ mem.drop 562) := by
    simp only [generate_trampoline_code, MAX_SYSCALL_NR]
    rw [hnop, List.take_left' (by rw [List.length_replicate]),
      List.drop_left' (by rw [List.length_replicate])]
    rw [generate_hook_stub_eq_listing]
    rw [setRange_eq_splice _ _ _
      (by rw [stubListing_length, List.length_drop, hlen']; omega)]
    rw [stubListing_length, List.take_zero, List.nil_append, Nat.zero_add,
      List.drop_drop]
  constructor
  · rw [hmain]
    rw [show MAX_SYSCALL_NR + 50 = 562 from rfl]
    simp only [stubListing, MAX_SYSCALL_NR, List.append_assoc]
  · intro regs
    rw [hmain]
    simp only [MAX_SYSCALL_NR]
    rw [List.drop_left' (by rw [List.length_replicate])]
    rfl

/-- Witness for C4 at a concrete address and an all-zero buffer. -/
theorem claim_C4_witness :
    generate_trampoline_code 0x1234 (List.replicate TRAMPOLINE_SIZE 0) =
      List.replicate MAX_SYSCALL_NR 0x90 ++
        (enc_push_r9 ++ enc_push_r8 ++ enc_push_r10 ++ enc_push_rdx ++ enc_push_rsi
          ++ enc_push_rdi ++ enc_push_rax ++ enc_sub_rsp_8 ++ enc_lea_rdi_rsp_plus_8
          ++ enc_movabs_r11 0x1234 ++ enc_call_r11 ++ enc_add_rsp_8 ++ enc_add_rsp_8
          ++ enc_pop_rdi ++ enc_pop_rsi ++ enc_pop_rdx ++ enc_pop_r10 ++ enc_pop_r8
          ++ enc_pop_r9 ++ enc_ret) ++
        (List.replicate TRAMPOLINE_SIZE 0).drop (MAX_SYSCALL_NR + 50) ∧
    (∀ regs : SyscallRegs,
      stackRecordLowestFirst
        (decodePushes 7 ((generate_trampoline_code 0x1234
          (List.replicate TRAMPOLINE_SIZE 0)).drop MAX_SYSCALL_NR))
        regs = recordFields regs) :=
  claim_C4_trampoline_layout 0x1234 (List.replicate TRAMPOLINE_SIZE 0)
    (by rw [List.length_replicate])

end Zpoline
